import Mathlib

/-!
Verification of the MiniGrid agent simulation of the eqmarl-vis repository
(src/scenes.py and src/icab_demo.py), at the level of its discrete state:
player position, player look angle, hazard cells and goal cell.

Conventions of the shallow embedding:
- Python integers are modelled as Int. Python floor division and modulo on
  positive divisors agree with Int ediv and emod, which are the Div and Mod
  instances used here; every divisor appearing below (a grid dimension, or
  360) is positive on all inputs the theorems touch.
- Methods that mutate the object in place are modelled as pure functions
  returning the updated record.
- A Python runtime error (the UnboundLocalError on shift_direction in
  move_player_forward when no direction branch fires, or the AssertionError
  of minigrid_path_str_to_list) is modelled as the error case of Except.
- Continuous scene coordinates (cell centers, interpolated poses) are
  modelled over the rationals, in the frame of the assembled grid: cells are
  2 by 2 squares laid out row major by arrange_in_grid with buff 0, so the
  center of the cell in row r and column c sits at (2c, -2r) up to a global
  translation of the whole grid, which every compared coordinate shares.
-/

deriving instance DecidableEq for Except

namespace EqmarlVis

/-- The MinigridAction IntEnum, identical in scenes.py and icab_demo.py. -/
inductive MinigridAction where
  | LEFT
  | RIGHT
  | FORWARD
deriving DecidableEq, Repr

/-- negative_index_rollover from icab_demo.py (also inlined in the scenes.py
constructor): i if i >= 0 else i + size. -/
def negative_index_rollover (i size : Int) : Int :=
  if 0 ≤ i then i else i + size

/-- The discrete state carried by a MiniGrid object: grid_size, the player
fields player_grid_pos and player_look_angle (in icab_demo.py the position
and angle are stored in the render object and read back through coord_to_pos
and round_to_nearest_angle; for cardinal angles on the grid this recovers
exactly the discrete pair modelled here), goal_pos and hazards_grid_pos. -/
structure MiniGrid where
  grid_size : Int × Int
  player_look_angle : Int
  player_grid_pos : Int × Int
  goal_pos : Int × Int
  hazards_grid_pos : List (Int × Int)
deriving DecidableEq, Repr

/-- The MiniGrid constructor: negative player, goal and hazard indices roll
over per axis before being stored (scenes.py lines 94-106, icab_demo.py
lines 298-304). -/
def MiniGrid.init (grid_size player_grid_pos goal_grid_pos : Int × Int)
    (player_look_angle : Int)
    (hazards_grid_pos : List (Int × Int)) : MiniGrid :=
  let roll : Int × Int → Int × Int := fun p =>
    (negative_index_rollover p.1 grid_size.1, negative_index_rollover p.2 grid_size.2)
  { grid_size := grid_size
    player_look_angle := player_look_angle
    player_grid_pos := roll player_grid_pos
    goal_pos := roll goal_grid_pos
    hazards_grid_pos := hazards_grid_pos.map roll }

/-- pos_to_index: pos[0] * grid_size[0] + pos[1] (it multiplies by the row
count, grid_size[0]; identical in scenes.py and icab_demo.py). -/
def MiniGrid.pos_to_index (g : MiniGrid) (pos : Int × Int) : Int :=
  pos.1 * g.grid_size.1 + pos.2

/-- index_to_pos: (index // grid_size[0], index % grid_size[1]) (it divides
by the row count and reduces modulo the column count; identical in
scenes.py and icab_demo.py). -/
def MiniGrid.index_to_pos (g : MiniGrid) (index : Int) : Int × Int :=
  (index / g.grid_size.1, index % g.grid_size.2)

/-- The direction branch of move_player_forward: the if/elif chain of
scenes.py lines 251-262 binds shift_direction and updates (r, c) when
player_look_angle % 360 == 0 or player_look_angle is exactly 90, 180 or
270; otherwise no branch fires, (r, c) stays the current position and
shift_direction stays unbound, which this model records as none. -/
def MiniGrid.forward_step (g : MiniGrid) : Option (Int × Int) :=
  if g.player_look_angle % 360 = 0 then
    some (g.player_grid_pos.1 - 1, g.player_grid_pos.2)
  else if g.player_look_angle = 90 then
    some (g.player_grid_pos.1, g.player_grid_pos.2 - 1)
  else if g.player_look_angle = 180 then
    some (g.player_grid_pos.1 + 1, g.player_grid_pos.2)
  else if g.player_look_angle = 270 then
    some (g.player_grid_pos.1, g.player_grid_pos.2 + 1)
  else
    none

/-- The (r, c) pair tested by the boundary check of move_player_forward:
the shifted cell when a direction branch fired, the unchanged current
position otherwise. -/
def MiniGrid.forward_target (g : MiniGrid) : Int × Int :=
  g.forward_step.getD g.player_grid_pos

/-- The boundary check of move_player_forward:
(r >= 0 and r < grid_size[0]) and (c >= 0 and c < grid_size[1]). -/
def MiniGrid.in_bounds (g : MiniGrid) (rc : Int × Int) : Prop :=
  0 ≤ rc.1 ∧ rc.1 < g.grid_size.1 ∧ 0 ≤ rc.2 ∧ rc.2 < g.grid_size.2

instance (g : MiniGrid) (rc : Int × Int) : Decidable (g.in_bounds rc) := by
  unfold MiniGrid.in_bounds
  exact inferInstance

/-- move_player_forward (scenes.py lines 248-271): compute (r, c) from the
direction branch, commit the position only when the boundary check passes.
When it passes, the source then shifts the render object by
shift_direction; if no direction branch fired that name is unbound and
Python raises UnboundLocalError there, modelled as the Except error.
icab_demo.py lines 454-472 reads the discrete pair back from the render
object and agrees with this transition on valid states of square grids. -/
def MiniGrid.move_player_forward (g : MiniGrid) : Except Unit MiniGrid :=
  match g.forward_step with
  | some rc =>
    if g.in_bounds rc then .ok { g with player_grid_pos := rc } else .ok g
  | none =>
    if g.in_bounds g.player_grid_pos then .error () else .ok g

/-- move_player_left (scenes.py lines 273-279): turn_amount = +90,
player_look_angle = (player_look_angle + turn_amount) % 360. -/
def MiniGrid.move_player_left (g : MiniGrid) : MiniGrid :=
  { g with player_look_angle := (g.player_look_angle + 90) % 360 }

/-- move_player_right (scenes.py lines 281-287): turn_amount = -90,
player_look_angle = (player_look_angle + turn_amount) % 360. -/
def MiniGrid.move_player_right (g : MiniGrid) : MiniGrid :=
  { g with player_look_angle := (g.player_look_angle + -90) % 360 }

/-- move_player (scenes.py lines 289-297, icab_demo.py lines 486-493):
dispatch on the action. -/
def MiniGrid.move_player (g : MiniGrid) : MinigridAction → Except Unit MiniGrid
  | .LEFT => .ok g.move_player_left
  | .RIGHT => .ok g.move_player_right
  | .FORWARD => g.move_player_forward

/-- Replay of an action sequence on the live agent: each action applied in
order through move_player. -/
def MiniGrid.run (g : MiniGrid) : List MinigridAction → Except Unit MiniGrid
  | [] => .ok g
  | a :: rest => do
    let g1 ← g.move_player a
    g1.run rest

/-- Per character action decoding of minigrid_path_str_to_list
(icab_demo.py lines 234-241): an if/elif chain with no else, so a character
outside the three codes appends nothing. -/
def char_to_action (a : Char) : Option MinigridAction :=
  if a = 'l' then some .LEFT
  else if a = 'r' then some .RIGHT
  else if a = 'f' then some .FORWARD
  else none

/-- minigrid_path_str_to_list (icab_demo.py lines 228-242): assert that
every character of the lowercased string is one of the three codes (the
AssertionError is the Except error), then decode the lowercased characters
in order. -/
def minigrid_path_str_to_list (s : List Char) : Except Unit (List MinigridAction) :=
  if (s.map Char.toLower).all (fun a => a == 'l' || a == 'r' || a == 'f') then
    .ok ((s.map Char.toLower).filterMap char_to_action)
  else
    .error ()

/-- The per step events the shadow replay can report: a flash on the hazard
cell or on the goal cell the shadow player just reached. -/
inductive MGEvent where
  | HazardEntered (pos : Int × Int)
  | GoalReached (pos : Int × Int)
deriving DecidableEq, Repr

def MGEvent.isHazard : MGEvent → Bool
  | .HazardEntered _ => true
  | .GoalReached _ => false

def MGEvent.isGoal : MGEvent → Bool
  | .HazardEntered _ => false
  | .GoalReached _ => true

/-- The event check of one step of animate_actions (icab_demo.py lines
528-536): after moving the shadow, if its position is in the hazard list a
hazard flash is scheduled, elif its position equals the goal a goal flash
is scheduled, else nothing. -/
def step_events (shadow : MiniGrid) : List MGEvent :=
  if shadow.player_grid_pos ∈ shadow.hazards_grid_pos then
    [.HazardEntered shadow.player_grid_pos]
  else if shadow.player_grid_pos = shadow.goal_pos then
    [.GoalReached shadow.player_grid_pos]
  else
    []

/-- animate_actions (icab_demo.py lines 513-538): fold the action sequence
over a shadow copy of the grid with move_player, collecting for each step
the flash events detected on the shadow, and return the per step event
lists together with the final shadow state. -/
def MiniGrid.animate_actions (g : MiniGrid) :
    List MinigridAction → Except Unit (List (List MGEvent) × MiniGrid)
  | [] => .ok ([], g)
  | a :: rest => do
    let shadow ← g.move_player a
    let (evss, gf) ← shadow.animate_actions rest
    .ok (step_events shadow :: evss, gf)

/-- Agent state invariant of the spec: position within bounds and
a cardinal look angle. -/
def MiniGrid.valid_state (g : MiniGrid) : Prop :=
  g.in_bounds g.player_grid_pos ∧ g.player_look_angle ∈ ([0, 90, 180, 270] : List Int)

instance (g : MiniGrid) : Decidable g.valid_state := by
  unfold MiniGrid.valid_state
  exact inferInstance

/-- Center of the grid cell holding 1D index i, in the frame of the
assembled grid: arrange_in_grid lays the 2 by 2 square cells out row major
with grid_size[1] cells per row and buff 0, so index i sits in row
i // grid_size[1] and column i % grid_size[1], with the x axis growing
along columns and the y axis shrinking along rows. The global translation
of the assembled grid is shared by every center and cancels in every
comparison made below. -/
def grid_center (g : MiniGrid) (i : Int) : ℚ × ℚ :=
  (2 * ((i % g.grid_size.2 : Int) : ℚ), -2 * ((i / g.grid_size.2 : Int) : ℚ))

/-- The continuous pose of the player render object: its center coordinate
and the rotation angle in degrees accumulated on it. -/
structure Pose where
  center : ℚ × ℚ
  angle : ℚ
deriving DecidableEq, Repr

/-- The attributes a MiniGridMovePlayer animation carries after begin():
the captured start angle, the turn bookkeeping of the rotation leg, and the
start and end centers of the translation leg. For FORWARD the source never
assigns the three turn fields and the end angle and never reads them; the
model leaves them 0 there. -/
structure MoveAnim where
  action : MinigridAction
  player_start_angle : Int
  player_end_angle : Int
  turn_amount : Int
  turn_amount_current : ℚ
  player_start_center : ℚ × ℚ
  player_end_center : ℚ × ℚ
deriving DecidableEq, Repr

/-- MiniGridMovePlayer.begin (scenes.py lines 465-516): capture the start
angle and the center of the cell under the player; for LEFT and RIGHT set
the turn amount, zero the turn accumulator, compute the end angle and keep
the end center at the start; for FORWARD run the direction branch and the
boundary check, and when the check passes commit player_grid_pos to the
minigrid right here in begin and take the end center from the target cell,
otherwise keep the end center at the start. Returns the animation state
together with the (possibly updated) minigrid. -/
def MiniGridMovePlayer.begin (g : MiniGrid) (action : MinigridAction) :
    MoveAnim × MiniGrid :=
  let start_angle := g.player_look_angle
  let start_center := grid_center g (g.pos_to_index g.player_grid_pos)
  match action with
  | .LEFT =>
    ({ action := .LEFT
       player_start_angle := start_angle
       player_end_angle := (start_angle + 90) % 360
       turn_amount := 90
       turn_amount_current := 0
       player_start_center := start_center
       player_end_center := start_center }, g)
  | .RIGHT =>
    ({ action := .RIGHT
       player_start_angle := start_angle
       player_end_angle := (start_angle + -90) % 360
       turn_amount := -90
       turn_amount_current := 0
       player_start_center := start_center
       player_end_center := start_center }, g)
  | .FORWARD =>
    let rc := g.forward_target
    if g.in_bounds rc then
      ({ action := .FORWARD
         player_start_angle := start_angle
         player_end_angle := 0
         turn_amount := 0
         turn_amount_current := 0
         player_start_center := start_center
         player_end_center := grid_center g (g.pos_to_index rc) },
       { g with player_grid_pos := rc })
    else
      ({ action := .FORWARD
         player_start_angle := start_angle
         player_end_angle := 0
         turn_amount := 0
         turn_amount_current := 0
         player_start_center := start_center
         player_end_center := start_center }, g)

/-- MiniGridMovePlayer.interpolate_mobject (scenes.py lines 518-549): for
LEFT and RIGHT rotate the player by the incremental delta
alpha * turn_amount - turn_amount_current and add it to the accumulator;
for FORWARD move the player to
start_center + alpha * (end_center - start_center). -/
def MiniGridMovePlayer.interpolate (st : MoveAnim) (pose : Pose) (alpha : ℚ) :
    MoveAnim × Pose :=
  match st.action with
  | .LEFT =>
    let incremental := alpha * (st.turn_amount : ℚ) - st.turn_amount_current
    ({ st with turn_amount_current := st.turn_amount_current + incremental },
     { pose with angle := pose.angle + incremental })
  | .RIGHT =>
    let incremental := alpha * (st.turn_amount : ℚ) - st.turn_amount_current
    ({ st with turn_amount_current := st.turn_amount_current + incremental },
     { pose with angle := pose.angle + incremental })
  | .FORWARD =>
    (st, { pose with center :=
      (st.player_start_center.1
         + alpha * (st.player_end_center.1 - st.player_start_center.1),
       st.player_start_center.2
         + alpha * (st.player_end_center.2 - st.player_start_center.2)) })

/-- MiniGridMovePlayer.finish (scenes.py lines 551-565): for LEFT and RIGHT
rotate the player by the remaining delta turn_amount - turn_amount_current
and commit player_look_angle = player_end_angle to the minigrid; for
FORWARD move the player exactly to the end center (the position was already
committed in begin). -/
def MiniGridMovePlayer.finish (st : MoveAnim) (g : MiniGrid) (pose : Pose) :
    MiniGrid × Pose :=
  match st.action with
  | .LEFT =>
    let incremental := (st.turn_amount : ℚ) - st.turn_amount_current
    ({ g with player_look_angle := st.player_end_angle },
     { pose with angle := pose.angle + incremental })
  | .RIGHT =>
    let incremental := (st.turn_amount : ℚ) - st.turn_amount_current
    ({ g with player_look_angle := st.player_end_angle },
     { pose with angle := pose.angle + incremental })
  | .FORWARD =>
    (g, { pose with center := st.player_end_center })

/-- Fold of interpolate over a list of alpha values, for stating the
accumulator behaviour of the rotation leg across a whole animation. -/
def MiniGridMovePlayer.interp_fold (st : MoveAnim) (pose : Pose) :
    List ℚ → MoveAnim × Pose
  | [] => (st, pose)
  | alpha :: rest =>
    let sp := MiniGridMovePlayer.interpolate st pose alpha
    MiniGridMovePlayer.interp_fold sp.1 sp.2 rest

/-- A MiniGrid record with the given grid_size and a default player, used
to state properties of the index maps, which only read grid_size. -/
def mkGrid (size : Int × Int) : MiniGrid :=
  { grid_size := size
    player_look_angle := 270
    player_grid_pos := (0, 0)
    goal_pos := (size.1 - 1, size.2 - 1)
    hazards_grid_pos := [] }

/-- Claim C1, counterexample: on the worked example grid (5 by 5, hazards
(1,1), (1,2), (1,3), goal (-1,-1), player at (0,0) facing 270), the string
fff parses to three FORWARD actions, and applying them moves the player to
(0, 3), not to the position (3, 0) the claim states: a look angle of 270
makes Forward increment the column, so the player crosses row 0. -/
theorem C1_counterexample :
    minigrid_path_str_to_list ['f', 'f', 'f']
      = .ok [.FORWARD, .FORWARD, .FORWARD] ∧
    Except.map MiniGrid.player_grid_pos
        ((MiniGrid.init (5, 5) (0, 0) (-1, -1) 270
            [(1, 1), (1, 2), (1, 3)]).run [.FORWARD, .FORWARD, .FORWARD])
      ≠ .ok ((3 : Int), (0 : Int)) := by
  decide

/-- Claim C1, amended: on the 5 by 5 worked example the goal (-1,-1)
resolves to (4,4); fff parses to three FORWARD actions and moves the agent
along row 0 to (0,3) with no hazard or goal events; rfff then turns the
orientation from 270 to 180 and all three forward moves succeed, passing
through the hazard (1,3) (one HazardEntered event on the first forward)
and ending at (3,3) facing 180, exactly as the transition rules of section
4.3 prescribe. -/
theorem C1_worked_example :
    (MiniGrid.init (5, 5) (0, 0) (-1, -1) 270
        [(1, 1), (1, 2), (1, 3)]).goal_pos = ((4 : Int), (4 : Int)) ∧
    minigrid_path_str_to_list ['f', 'f', 'f']
      = .ok [.FORWARD, .FORWARD, .FORWARD] ∧
    minigrid_path_str_to_list ['r', 'f', 'f', 'f']
      = .ok [.RIGHT, .FORWARD, .FORWARD, .FORWARD] ∧
    (MiniGrid.init (5, 5) (0, 0) (-1, -1) 270
        [(1, 1), (1, 2), (1, 3)]).animate_actions
        [.FORWARD, .FORWARD, .FORWARD]
      = .ok ([[], [], []],
          MiniGrid.mk (5, 5) 270 (0, 3) (4, 4) [(1, 1), (1, 2), (1, 3)]) ∧
    (MiniGrid.mk (5, 5) 270 (0, 3) (4, 4)
        [(1, 1), (1, 2), (1, 3)]).animate_actions
        [.RIGHT, .FORWARD, .FORWARD, .FORWARD]
      = .ok ([[], [MGEvent.HazardEntered (1, 3)], [], []],
          MiniGrid.mk (5, 5) 180 (3, 3) (4, 4) [(1, 1), (1, 2), (1, 3)]) := by
  decide

/-- Claim C2: on a square grid index_to_pos inverts pos_to_index on every
valid position, and because both maps use the row count dimension the
round trip fails on some valid position of some non square grid (here
(0,2) on a 2 by 3 grid, which comes back as (1,2)). -/
theorem C2_roundtrip (n r c : Int)
    (hr0 : 0 ≤ r) (hrn : r < n) (hc0 : 0 ≤ c) (hcn : c < n) :
    (mkGrid (n, n)).index_to_pos ((mkGrid (n, n)).pos_to_index (r, c)) = (r, c) ∧
    ∃ g : MiniGrid, ∃ p : Int × Int, g.in_bounds p ∧
      g.grid_size.1 ≠ g.grid_size.2 ∧
      g.index_to_pos (g.pos_to_index p) ≠ p := by
  constructor
  · have hn : n ≠ 0 := by omega
    have h1 : (r * n + c) / n = r := by
      rw [add_comm, mul_comm, Int.add_mul_ediv_left c r hn,
        Int.ediv_eq_zero_of_lt hc0 hcn, zero_add]
    have h2 : (r * n + c) % n = c := by
      rw [add_comm, mul_comm, Int.add_mul_emod_self_left,
        Int.emod_eq_of_lt hc0 hcn]
    show ((r * n + c) / n, (r * n + c) % n) = (r, c)
    rw [h1, h2]
  · exact ⟨mkGrid (2, 3), (0, 2), by decide, by decide, by decide⟩

/-- Witness for C2 at n = 5, p = (1, 2). -/
theorem C2_witness :
    (mkGrid (5, 5)).index_to_pos ((mkGrid (5, 5)).pos_to_index (1, 2)) = (1, 2) ∧
    ∃ g : MiniGrid, ∃ p : Int × Int, g.in_bounds p ∧
      g.grid_size.1 ≠ g.grid_size.2 ∧
      g.index_to_pos (g.pos_to_index p) ≠ p :=
  C2_roundtrip 5 1 2 (by decide) (by decide) (by decide) (by decide)

/-- Claim C3: for any agent state with a cardinal look angle, Left then
Right is the identity, Right then Left is the identity, and neither turn
changes the position. -/
theorem C3_turn_inverse (g : MiniGrid)
    (h : g.player_look_angle ∈ ([0, 90, 180, 270] : List Int)) :
    g.move_player_left.move_player_right = g ∧
    g.move_player_right.move_player_left = g ∧
    g.move_player_left.player_grid_pos = g.player_grid_pos ∧
    g.move_player_right.player_grid_pos = g.player_grid_pos := by
  obtain ⟨gs, a, p, gp, hz⟩ := g
  simp only [List.mem_cons, List.not_mem_nil, or_false] at h
  rcases h with h | h | h | h <;> subst h <;>
    simp [MiniGrid.move_player_left, MiniGrid.move_player_right]

/-- Witness for C3 at the default 5 by 5 grid (look angle 270). -/
theorem C3_witness :
    (mkGrid (5, 5)).move_player_left.move_player_right = mkGrid (5, 5) ∧
    (mkGrid (5, 5)).move_player_right.move_player_left = mkGrid (5, 5) ∧
    (mkGrid (5, 5)).move_player_left.player_grid_pos
      = (mkGrid (5, 5)).player_grid_pos ∧
    (mkGrid (5, 5)).move_player_right.player_grid_pos
      = (mkGrid (5, 5)).player_grid_pos :=
  C3_turn_inverse (mkGrid (5, 5)) (by decide)

/-- Claim C4: whenever the cell the Forward branch computes lies outside
the grid bounds, move_player_forward returns the input state unchanged and
raises nothing: an out of bounds Forward is a silent no op. -/
theorem C4_blocked_forward_noop (g : MiniGrid)
    (h : ¬ g.in_bounds g.forward_target) :
    g.move_player_forward = .ok g := by
  unfold MiniGrid.forward_target at h
  cases hs : g.forward_step with
  | some rc =>
    rw [hs] at h
    simp only [Option.getD_some] at h
    simp only [MiniGrid.move_player_forward, hs]
    rw [if_neg h]
  | none =>
    rw [hs] at h
    simp only [Option.getD_none] at h
    simp only [MiniGrid.move_player_forward, hs]
    rw [if_neg h]

/-- Witness for C4: at (0,0) facing 0 on a 5 by 5 grid the Forward target
(-1, 0) is out of bounds and the move is the identity. -/
theorem C4_witness :
    ¬ (MiniGrid.mk (5, 5) 0 (0, 0) (4, 4) []).in_bounds
        (MiniGrid.mk (5, 5) 0 (0, 0) (4, 4) []).forward_target ∧
    (MiniGrid.mk (5, 5) 0 (0, 0) (4, 4) []).move_player_forward
      = .ok (MiniGrid.mk (5, 5) 0 (0, 0) (4, 4) []) :=
  ⟨by decide, C4_blocked_forward_noop _ (by decide)⟩

/-- A left turn preserves the agent state invariant. -/
theorem left_preserves_valid (g : MiniGrid) (h : g.valid_state) :
    g.move_player_left.valid_state := by
  obtain ⟨hb, ha⟩ := h
  refine ⟨hb, ?_⟩
  simp only [List.mem_cons, List.not_mem_nil, or_false] at ha ⊢
  rcases ha with ha | ha | ha | ha <;>
    simp [MiniGrid.move_player_left, ha]

/-- A right turn preserves the agent state invariant. -/
theorem right_preserves_valid (g : MiniGrid) (h : g.valid_state) :
    g.move_player_right.valid_state := by
  obtain ⟨hb, ha⟩ := h
  refine ⟨hb, ?_⟩
  simp only [List.mem_cons, List.not_mem_nil, or_false] at ha ⊢
  rcases ha with ha | ha | ha | ha <;>
    simp [MiniGrid.move_player_right, ha]

/-- On a valid state the direction branch of Forward always fires. -/
theorem forward_step_isSome_of_valid (g : MiniGrid) (h : g.valid_state) :
    ∃ rc, g.forward_step = some rc := by
  obtain ⟨_, ha⟩ := h
  simp only [List.mem_cons, List.not_mem_nil, or_false] at ha
  rcases ha with ha | ha | ha | ha <;> simp [MiniGrid.forward_step, ha]

/-- A forward move from a valid state succeeds and preserves the agent
state invariant. -/
theorem forward_preserves_valid (g : MiniGrid) (h : g.valid_state) :
    ∃ g1, g.move_player_forward = .ok g1 ∧ g1.valid_state := by
  obtain ⟨rc, hs⟩ := forward_step_isSome_of_valid g h
  simp only [MiniGrid.move_player_forward, hs]
  by_cases hb : g.in_bounds rc
  · rw [if_pos hb]
    exact ⟨_, rfl, hb, h.2⟩
  · rw [if_neg hb]
    exact ⟨g, rfl, h⟩

/-- Claim C5: from any state with an in bounds position and a cardinal look
angle, every finite Left/Right/Forward sequence runs without error and ends
in a state with an in bounds position and a cardinal look angle. -/
theorem C5_invariant (g : MiniGrid) (acts : List MinigridAction)
    (h : g.valid_state) :
    ∃ gf, g.run acts = .ok gf ∧ gf.valid_state := by
  induction acts generalizing g with
  | nil => exact ⟨g, rfl, h⟩
  | cons a rest ih =>
    cases a with
    | LEFT =>
      obtain ⟨gf, h1, h2⟩ := ih g.move_player_left (left_preserves_valid g h)
      exact ⟨gf, h1, h2⟩
    | RIGHT =>
      obtain ⟨gf, h1, h2⟩ := ih g.move_player_right (right_preserves_valid g h)
      exact ⟨gf, h1, h2⟩
    | FORWARD =>
      obtain ⟨g1, hf, hv⟩ := forward_preserves_valid g h
      obtain ⟨gf, h1, h2⟩ := ih g1 hv
      refine ⟨gf, ?_, h2⟩
      rw [MiniGrid.run]
      rw [show g.move_player .FORWARD = Except.ok g1 from hf]
      exact h1

/-- Witness for C5: a concrete run on the default 5 by 5 grid. -/
theorem C5_witness :
    ∃ gf, (mkGrid (5, 5)).run [.FORWARD, .LEFT, .FORWARD, .RIGHT] = .ok gf ∧
      gf.valid_state :=
  C5_invariant (mkGrid (5, 5)) [.FORWARD, .LEFT, .FORWARD, .RIGHT] (by decide)

/-- When every lowercased character is a valid code, the decoding loop
keeps every character and produces the action of each in order. -/
theorem decode_of_valid (s : List Char)
    (h : ∀ c ∈ s, c.toLower ∈ (['l', 'r', 'f'] : List Char)) :
    (s.map Char.toLower).filterMap char_to_action
      = s.map (fun c => if c.toLower = 'l' then MinigridAction.LEFT
          else if c.toLower = 'r' then .RIGHT else .FORWARD) := by
  induction s with
  | nil => rfl
  | cons c rest ih =>
    have hc := h c (List.mem_cons_self c rest)
    have hrest : ∀ x ∈ rest, x.toLower ∈ (['l', 'r', 'f'] : List Char) :=
      fun x hx => h x (List.mem_cons_of_mem c hx)
    simp only [List.mem_cons, List.not_mem_nil, or_false] at hc
    simp only [List.map_cons, List.filterMap_cons]
    rcases hc with hc | hc | hc <;>
      simp [char_to_action, hc, ih hrest]

/-- Claim C6: for every string, if every character is (case insensitively)
one of l, r, f then parsing returns the corresponding action list in order
(one action per character); and if any character falls outside that set the
whole batch is rejected with the parse time assertion failure before any
action is produced. -/
theorem C6_parse (s : List Char) :
    ((∀ c ∈ s, c.toLower ∈ (['l', 'r', 'f'] : List Char)) →
      minigrid_path_str_to_list s
        = .ok (s.map (fun c => if c.toLower = 'l' then MinigridAction.LEFT
            else if c.toLower = 'r' then .RIGHT else .FORWARD))) ∧
    ((∃ c ∈ s, c.toLower ∉ (['l', 'r', 'f'] : List Char)) →
      minigrid_path_str_to_list s = .error ()) := by
  constructor
  · intro h
    have hall : (s.map Char.toLower).all
        (fun a => a == 'l' || a == 'r' || a == 'f') = true := by
      rw [List.all_eq_true]
      intro a hamem
      obtain ⟨c, hcmem, rfl⟩ := List.mem_map.mp hamem
      have hc := h c hcmem
      simp only [List.mem_cons, List.not_mem_nil, or_false] at hc
      rcases hc with hc | hc | hc <;> simp [hc]
    unfold minigrid_path_str_to_list
    rw [if_pos hall, decode_of_valid s h]
  · intro h
    obtain ⟨c, hcmem, hc⟩ := h
    have hall : ¬ ((s.map Char.toLower).all
        (fun a => a == 'l' || a == 'r' || a == 'f') = true) := by
      rw [List.all_eq_true]
      intro hforall
      have := hforall c.toLower (List.mem_map_of_mem Char.toLower hcmem)
      simp only [Bool.or_eq_true, beq_iff_eq] at this
      simp only [List.mem_cons, List.not_mem_nil, or_false] at hc
      tauto
    unfold minigrid_path_str_to_list
    rw [if_neg hall]

/-- Witness for C6: the mixed case string lF parses to Left then Forward,
and the string lx is rejected as a whole. -/
theorem C6_witness :
    minigrid_path_str_to_list ['l', 'F'] = .ok [.LEFT, .FORWARD] ∧
    minigrid_path_str_to_list ['l', 'x'] = .error () :=
  ⟨((C6_parse ['l', 'F']).1 (by decide)).trans (by decide),
   (C6_parse ['l', 'x']).2 (by decide)⟩

/-- The if/elif of the event check makes one step report a hazard flash or
a goal flash, never both. -/
theorem step_events_exclusive (s : MiniGrid) :
    ¬ (List.any (step_events s) MGEvent.isHazard = true ∧
       List.any (step_events s) MGEvent.isGoal = true) := by
  unfold step_events
  by_cases h1 : s.player_grid_pos ∈ s.hazards_grid_pos
  · rw [if_pos h1]
    simp [MGEvent.isHazard, MGEvent.isGoal]
  · rw [if_neg h1]
    by_cases h2 : s.player_grid_pos = s.goal_pos
    · rw [if_pos h2]
      simp [MGEvent.isHazard, MGEvent.isGoal]
    · rw [if_neg h2]
      simp

/-- Claim C7: at no step of the shadow replay does the event detection of
animate_actions report both a HazardEntered and a GoalReached flash for
the same applied action, on any grid, start state and action sequence. -/
theorem C7_exclusive (g : MiniGrid) (acts : List MinigridAction)
    (evss : List (List MGEvent)) (gf : MiniGrid)
    (h : g.animate_actions acts = .ok (evss, gf)) :
    ∀ evs ∈ evss,
      ¬ (evs.any MGEvent.isHazard = true ∧ evs.any MGEvent.isGoal = true) := by
  induction acts generalizing g evss gf with
  | nil =>
    simp only [MiniGrid.animate_actions, Except.ok.injEq, Prod.mk.injEq] at h
    obtain ⟨rfl, rfl⟩ := h.symm
    simp
  | cons a rest ih =>
    rw [MiniGrid.animate_actions] at h
    cases hmv : g.move_player a with
    | error e =>
      rw [hmv] at h
      simp only [Bind.bind, Except.bind] at h
      exact Except.noConfusion h
    | ok shadow =>
      rw [hmv] at h
      simp only [Bind.bind, Except.bind] at h
      cases hrec : shadow.animate_actions rest with
      | error e =>
        rw [hrec] at h
        exact Except.noConfusion h
      | ok p =>
        obtain ⟨evss1, gf1⟩ := p
        rw [hrec] at h
        simp only [Except.ok.injEq, Prod.mk.injEq] at h
        obtain ⟨rfl, rfl⟩ := h.symm
        intro evs hevs
        rcases List.mem_cons.mp hevs with rfl | hm
        · exact step_events_exclusive shadow
        · exact ih shadow evss1 gf1 hrec evs hm

/-- Witness for C7: the 1 by 1 grid where a single Left turn leaves the
shadow on the goal cell and one GoalReached event is reported. -/
theorem C7_witness :
    ¬ (List.any [MGEvent.GoalReached ((0 : Int), (0 : Int))] MGEvent.isHazard = true ∧
       List.any [MGEvent.GoalReached ((0 : Int), (0 : Int))] MGEvent.isGoal = true) :=
  C7_exclusive (MiniGrid.init (1, 1) (0, 0) (-1, -1) 270 []) [.LEFT]
    [[MGEvent.GoalReached (0, 0)]] (MiniGrid.mk (1, 1) 0 (0, 0) (0, 0) [])
    (by decide) [MGEvent.GoalReached (0, 0)] (by decide)

/-- Claim C8: replaying an action sequence on the disposable shadow copy
inside animate_actions and replaying the same sequence on the live agent
through move_player give the same final agent state (and the same error
behaviour), for every start state and sequence. -/
theorem C8_shadow_live (g : MiniGrid) (acts : List MinigridAction) :
    Except.map Prod.snd (g.animate_actions acts) = g.run acts := by
  induction acts generalizing g with
  | nil => rfl
  | cons a rest ih =>
    rw [MiniGrid.animate_actions, MiniGrid.run]
    cases hmv : g.move_player a with
    | error e => simp [Bind.bind, Except.bind, Except.map]
    | ok shadow =>
      simp only [Bind.bind, Except.bind]
      rw [← ih shadow]
      cases hrec : shadow.animate_actions rest with
      | error e => simp [Except.map]
      | ok p =>
        obtain ⟨evss, gf⟩ := p
        simp [Except.map]

/-- One interpolate call never touches the action, the turn amount or the
end angle, and the rotation it applies to the pose equals the growth of
the accumulator exactly. -/
theorem interpolate_step (st : MoveAnim) (pose : Pose) (alpha : ℚ) :
    (MiniGridMovePlayer.interpolate st pose alpha).1.action = st.action ∧
    (MiniGridMovePlayer.interpolate st pose alpha).1.turn_amount = st.turn_amount ∧
    (MiniGridMovePlayer.interpolate st pose alpha).1.player_end_angle
      = st.player_end_angle ∧
    (MiniGridMovePlayer.interpolate st pose alpha).2.angle
        - (MiniGridMovePlayer.interpolate st pose alpha).1.turn_amount_current
      = pose.angle - st.turn_amount_current := by
  obtain ⟨act, sa, ea, ta, tc, sc, ec⟩ := st
  obtain ⟨pc, pa⟩ := pose
  cases act <;> refine ⟨rfl, rfl, rfl, ?_⟩ <;>
    dsimp only [MiniGridMovePlayer.interpolate] <;> ring

/-- Across any schedule of interpolate calls the rotation bookkeeping is
exact: action, turn amount and end angle are untouched, and the rotation
applied to the pose always equals the growth of the accumulator. -/
theorem interp_fold_invariant (alphas : List ℚ) (st : MoveAnim) (pose : Pose) :
    (MiniGridMovePlayer.interp_fold st pose alphas).1.action = st.action ∧
    (MiniGridMovePlayer.interp_fold st pose alphas).1.turn_amount = st.turn_amount ∧
    (MiniGridMovePlayer.interp_fold st pose alphas).1.player_end_angle
      = st.player_end_angle ∧
    (MiniGridMovePlayer.interp_fold st pose alphas).2.angle
        - (MiniGridMovePlayer.interp_fold st pose alphas).1.turn_amount_current
      = pose.angle - st.turn_amount_current := by
  induction alphas generalizing st pose with
  | nil => exact ⟨rfl, rfl, rfl, rfl⟩
  | cons alpha rest ih =>
    rw [MiniGridMovePlayer.interp_fold]
    obtain ⟨s1, s2, s3, s4⟩ := interpolate_step st pose alpha
    obtain ⟨i1, i2, i3, i4⟩ := ih (MiniGridMovePlayer.interpolate st pose alpha).1
      (MiniGridMovePlayer.interpolate st pose alpha).2
    exact ⟨i1.trans s1, i2.trans s2, i3.trans s3, i4.trans s4⟩

/-- Claim C9, counterexample: on the worked example grid a Forward
animation already commits the new discrete position (0,1) to the minigrid
inside begin, before finish ever runs, so finish is not the point where
the discrete position is committed. -/
theorem C9_counterexample :
    (MiniGridMovePlayer.begin
        (MiniGrid.init (5, 5) (0, 0) (-1, -1) 270 []) .FORWARD).2.player_grid_pos
      = ((0 : Int), (1 : Int)) ∧
    (MiniGridMovePlayer.begin
        (MiniGrid.init (5, 5) (0, 0) (-1, -1) 270 []) .FORWARD).2.player_grid_pos
      ≠ (MiniGrid.init (5, 5) (0, 0) (-1, -1) 270 []).player_grid_pos := by
  decide

/-- Claim C9, amended: begin eagerly computes the end coordinate and end
orientation of the transition, including the Forward boundary check, and
for Forward it is begin (not finish) that commits the discrete position;
a blocked Forward produces identical start and end coordinates, so
interpolation at every alpha leaves the pose at the start; finish snaps
the pose exactly to the end pose: for Forward it moves exactly to the end
coordinate and leaves the minigrid untouched, and for turns, after any
schedule of interpolate calls, it applies exactly the turn remaining in
the accumulator (total rotation exactly turn_amount, drift free) and is
the point where the discrete orientation is committed. -/
theorem C9_animator (g : MiniGrid) (pose : Pose) (alpha : ℚ) :
    (g.in_bounds g.forward_target →
      (MiniGridMovePlayer.begin g .FORWARD).1.player_end_center
        = grid_center g (g.pos_to_index g.forward_target) ∧
      (MiniGridMovePlayer.begin g .FORWARD).2.player_grid_pos
        = g.forward_target) ∧
    (¬ g.in_bounds g.forward_target →
      (MiniGridMovePlayer.begin g .FORWARD).1.player_end_center
        = (MiniGridMovePlayer.begin g .FORWARD).1.player_start_center ∧
      (MiniGridMovePlayer.begin g .FORWARD).2 = g ∧
      (MiniGridMovePlayer.interpolate
          (MiniGridMovePlayer.begin g .FORWARD).1 pose alpha).2.center
        = (MiniGridMovePlayer.begin g .FORWARD).1.player_start_center) ∧
    (∀ st : MoveAnim, st.action = .FORWARD →
      (MiniGridMovePlayer.finish st g pose).2.center = st.player_end_center ∧
      (MiniGridMovePlayer.finish st g pose).1 = g) ∧
    (∀ st : MoveAnim, ∀ pose0 : Pose, ∀ alphas : List ℚ,
      (st.action = .LEFT ∨ st.action = .RIGHT) →
      (MiniGridMovePlayer.finish
          (MiniGridMovePlayer.interp_fold st pose0 alphas).1 g
          (MiniGridMovePlayer.interp_fold st pose0 alphas).2).2.angle
        = pose0.angle + ((st.turn_amount : ℚ) - st.turn_amount_current) ∧
      (MiniGridMovePlayer.finish
          (MiniGridMovePlayer.interp_fold st pose0 alphas).1 g
          (MiniGridMovePlayer.interp_fold st pose0 alphas).2).1.player_look_angle
        = st.player_end_angle) := by
  refine ⟨?_, ?_, ?_, ?_⟩
  · intro h
    simp only [MiniGridMovePlayer.begin]
    rw [if_pos h]
    exact ⟨rfl, rfl⟩
  · intro h
    simp only [MiniGridMovePlayer.begin]
    rw [if_neg h]
    refine ⟨rfl, rfl, ?_⟩
    simp only [MiniGridMovePlayer.interpolate]
    have : ∀ x : ℚ, x + alpha * (x - x) = x := by intro x; ring
    exact Prod.ext (this _) (this _)
  · intro st h
    obtain ⟨act, sa, ea, ta, tc, sc, ec⟩ := st
    dsimp only at h
    subst h
    exact ⟨rfl, rfl⟩
  · intro st pose0 alphas h
    obtain ⟨i1, i2, i3, i4⟩ := interp_fold_invariant alphas st pose0
    rcases h with h | h
    · rw [h] at i1
      simp only [MiniGridMovePlayer.finish, i1]
      refine ⟨?_, ?_⟩
      · dsimp only
        rw [i2]
        linarith [i4]
      · dsimp only
        exact i3
    · rw [h] at i1
      simp only [MiniGridMovePlayer.finish, i1]
      refine ⟨?_, ?_⟩
      · dsimp only
        rw [i2]
        linarith [i4]
      · dsimp only
        exact i3

/-- Witness for C9: a blocked Forward (facing 0 at the top left corner of
a 5 by 5 grid) has equal start and end centers, leaves the minigrid
unchanged in begin, and interpolating at alpha one half keeps the pose at
the start center. -/
theorem C9_witness :
    ¬ (MiniGrid.mk (5, 5) 0 (0, 0) (4, 4) []).in_bounds
        (MiniGrid.mk (5, 5) 0 (0, 0) (4, 4) []).forward_target ∧
    ((MiniGridMovePlayer.begin
        (MiniGrid.mk (5, 5) 0 (0, 0) (4, 4) []) .FORWARD).1.player_end_center
      = (MiniGridMovePlayer.begin
          (MiniGrid.mk (5, 5) 0 (0, 0) (4, 4) []) .FORWARD).1.player_start_center ∧
    (MiniGridMovePlayer.begin
        (MiniGrid.mk (5, 5) 0 (0, 0) (4, 4) []) .FORWARD).2
      = MiniGrid.mk (5, 5) 0 (0, 0) (4, 4) [] ∧
    (MiniGridMovePlayer.interpolate
        (MiniGridMovePlayer.begin
          (MiniGrid.mk (5, 5) 0 (0, 0) (4, 4) []) .FORWARD).1
        (Pose.mk (0, 0) 0) (1 / 2)).2.center
      = (MiniGridMovePlayer.begin
          (MiniGrid.mk (5, 5) 0 (0, 0) (4, 4) []) .FORWARD).1.player_start_center) :=
  ⟨by decide,
   (C9_animator (MiniGrid.mk (5, 5) 0 (0, 0) (4, 4) []) (Pose.mk (0, 0) 0) (1 / 2)).2.1
     (by decide)⟩

/-- Claim C10, counterexample: the look angle -90 is congruent to 270
modulo 360, yet move_player_forward from an in bounds position raises the
unbound local error instead of moving, because the source compares the
angle to 90, 180 and 270 exactly and only the first branch reduces modulo
360. -/
theorem C10_counterexample :
    ((-90 : Int) % 360) ∈ ([0, 90, 180, 270] : List Int) ∧
    (MiniGrid.mk (5, 5) (-90) (0, 0) (4, 4) []).move_player_forward
      = .error () := by
  decide

/-- Claim C10, amended: the direction branch of move_player_forward fires
exactly when the look angle satisfies angle mod 360 = 0 or angle is one of
90, 180 or 270 on the nose; for such states Forward always succeeds, and
for any other angle with an in bounds position the call fails with the
unbound local variable error instead of acting as a no op. -/
theorem C10_forward_domain (g : MiniGrid) :
    ((g.player_look_angle % 360 = 0 ∨ g.player_look_angle = 90 ∨
      g.player_look_angle = 180 ∨ g.player_look_angle = 270) →
      ∃ g1, g.move_player_forward = .ok g1) ∧
    (¬ (g.player_look_angle % 360 = 0 ∨ g.player_look_angle = 90 ∨
        g.player_look_angle = 180 ∨ g.player_look_angle = 270) →
      g.in_bounds g.player_grid_pos →
      g.move_player_forward = .error ()) := by
  constructor
  · intro h
    have hs : ∃ rc, g.forward_step = some rc := by
      unfold MiniGrid.forward_step
      rcases h with h | h | h | h
      · rw [if_pos h]
        exact ⟨_, rfl⟩
      · rw [h]
        norm_num
      · rw [h]
        norm_num
      · rw [h]
        norm_num
    obtain ⟨rc, hs⟩ := hs
    simp only [MiniGrid.move_player_forward, hs]
    by_cases hb : g.in_bounds rc
    · rw [if_pos hb]
      exact ⟨_, rfl⟩
    · rw [if_neg hb]
      exact ⟨g, rfl⟩
  · intro h hb
    push_neg at h
    have hs : g.forward_step = none := by
      unfold MiniGrid.forward_step
      rw [if_neg h.1, if_neg h.2.1, if_neg h.2.2.1, if_neg h.2.2.2]
    simp only [MiniGrid.move_player_forward, hs]
    rw [if_pos hb]

/-- Witness for C10: at (0,0) on a 5 by 5 grid, Forward succeeds with look
angle 90 and raises with look angle 45. -/
theorem C10_witness :
    (∃ g1, (MiniGrid.mk (5, 5) 90 (0, 0) (4, 4) []).move_player_forward
      = .ok g1) ∧
    (MiniGrid.mk (5, 5) 45 (0, 0) (4, 4) []).move_player_forward
      = .error () :=
  ⟨(C10_forward_domain (MiniGrid.mk (5, 5) 90 (0, 0) (4, 4) [])).1 (by decide),
   (C10_forward_domain (MiniGrid.mk (5, 5) 45 (0, 0) (4, 4) [])).2
     (by decide) (by decide)⟩

end EqmarlVis
